import Mathlib

/-!
Shallow embedding of `src/jupyterhub/files/hub/jupyterhub_config.py`
(the Helm-chart-generated JupyterHub configuration script of the
zero-to-jupyterhub-k8s repository), together with theorems settling the
claims of the specification against it.

Python values appearing in the configuration tree are modelled by the
inductive type `CValue`; the mutable traitlets configuration object `c`
is modelled as a function from (application name, attribute name) to a
`CValue`.  Helper functions that live in the repository's `z2jh` module
(not present under `src/`) are modelled from the specification's
description of them and carry a doc comment saying so.
-/

/-- Model of a Python/YAML value as it appears in the merged Helm
configuration tree: `null`, booleans, strings, integers, lists and
(insertion-ordered) dictionaries. -/
inductive CValue where
  | null : CValue
  | bool : Bool → CValue
  | str : String → CValue
  | int : Int → CValue
  | list : List CValue → CValue
  | dict : List (String × CValue) → CValue

/-- Python `is None` test on a configuration value. -/
def CValue.isNull : CValue → Bool
  | .null => true
  | _ => false

/-- Python truthiness of a configuration value (`if v:`).  `None`,
`False`, `""`, `0` and empty collections are falsy. -/
def CValue.truthy : CValue → Bool
  | .null => false
  | .bool b => b
  | .str s => !(s == "")
  | .int n => !(n == 0)
  | .list xs => !xs.isEmpty
  | .dict xs => !xs.isEmpty

/-- Python `str()` rendering of a scalar configuration value, as used by
f-string interpolation in the source.  Lists and dictionaries are not
interpolated by any code path a claim touches, so their rendering is a
placeholder. -/
def CValue.pyStr : CValue → String
  | .null => "None"
  | .bool true => "True"
  | .bool false => "False"
  | .str s => s
  | .int n => toString n
  | .list _ => "<list>"
  | .dict _ => "<dict>"

/-- Python `repr()` rendering of a scalar configuration value, as used by
the `%r` format in the source's `"Unhandled auth type: %r"` message.
Strings are quoted; other scalars render as `str()` does. -/
def CValue.pyRepr : CValue → String
  | .str s => "\x27" ++ s ++ "\x27"
  | v => v.pyStr

/-- Python `==` comparison between a configuration value and a string
literal: only a string value can compare equal to a string. -/
def CValue.eqStr : CValue → String → Bool
  | .str s, n => s == n
  | _, _ => false

/-- Modelled from the spec: the merged configuration tree read by the
repository's `z2jh.get_config` helper (the `z2jh` module is not under
`src/`), "a nested key-value configuration tree (depth-first,
dotted-path addressable)".  Lookup is by dotted path; `none` means the
path is absent from the tree, `some v` that it is present with value
`v` (which may be `CValue.null`). -/
structure ConfigTree where
  lookup : String → Option CValue

/-- Modelled from the spec: `z2jh.get_config(key)` with the default
defaulting to `None` — returns the value at the dotted path, or `null`
when the path is absent. -/
def get_config (t : ConfigTree) (key : String) : CValue :=
  (t.lookup key).getD CValue.null

/-- Modelled from the spec: `z2jh.get_config(key, default)` — returns
the value at the dotted path, or `default` when the path is absent. -/
def get_configD (t : ConfigTree) (key : String) (default : CValue) : CValue :=
  (t.lookup key).getD default

/-- Build a concrete configuration tree from an association list of
dotted paths. -/
def treeOfList (l : List (String × CValue)) : ConfigTree :=
  ⟨fun k => (l.find? (fun p => p.1 == k)).map Prod.snd⟩

/-- The traitlets configuration object `c`: a mapping from (application
name, attribute name) to the attribute's current value.  The initial
function models the hosting service's built-in defaults. -/
def Settings : Type := String → String → CValue

/-- Assignment `c.App.attr = v` on the configuration object. -/
def setAttr (s : Settings) (app attr : String) (v : CValue) : Settings :=
  fun a b => if a == app && b == attr then v else s a b

/-- Translation of `camelCaseify`'s regex substitution
`re.sub(r"_([a-z])", lambda m: m.group(1).upper(), s)` on the character
list: each non-overlapping occurrence of `_` followed by a lowercase
letter is replaced by that letter uppercased, scanning left to right. -/
def camelCaseChars : List Char → List Char
  | [] => []
  | '_' :: c :: rest =>
    if 'a' ≤ c ∧ c ≤ 'z' then c.toUpper :: camelCaseChars rest
    else '_' :: camelCaseChars (c :: rest)
  | c :: rest => c :: camelCaseChars rest

/-- Translation of `camelCaseify` (src line 26): convert snake_case to
camelCase. -/
def camelCaseify (s : String) : String :=
  ⟨camelCaseChars s.data⟩

/-- Modelled from the spec: the helper `z2jh.set_config_if_not_none`
(the `z2jh` module is not under `src/`): "if the source key is present
and non-null in the configuration tree, assign the (possibly
type-converted) value to the named attribute on the named settings
category; absent or null keys are left at the hosting service's own
default — never overwritten with null". -/
def set_config_if_not_none (t : ConfigTree) (s : Settings)
    (app attr key : String) : Settings :=
  match t.lookup key with
  | some v => if v.isNull then s else setAttr s app attr v
  | none => s

/-- Built-in defaults of the hosting service, used as a concrete initial
configuration object in witnesses. -/
def defaultSettings : Settings := fun _ _ => CValue.null

/-- Concrete configuration tree used by witnesses. -/
def c1_tree : ConfigTree :=
  treeOfList [("hub.baseUrl", CValue.str "/jh"), ("hub.nullKey", CValue.null)]

/-- C6: `camelCaseify` is a pure function from strings to strings (it is
a Lean function of type `String → String`) converting underscore-
separated words to initial-lowercase camel case; in particular
`mem_limit ↦ memLimit` and `node_affinity_required ↦
nodeAffinityRequired`. -/
theorem camelCaseify_examples :
    camelCaseify "mem_limit" = "memLimit"
    ∧ camelCaseify "node_affinity_required" = "nodeAffinityRequired" := by
  exact ⟨rfl, rfl⟩

/-- C1: for every (target-attribute, source-key) pair handled via
`set_config_if_not_none`: a present, non-null key makes the attribute
equal the configured value; an absent or null key leaves the whole
configuration object unchanged (never assigned null); and two
applications targeting distinct (category, attribute) pairs commute, so
each attribute's final value is independent of the evaluation order of
the other pairs. -/
theorem set_config_if_not_none_spec (t : ConfigTree) (s : Settings)
    (app attr key app2 attr2 key2 : String) :
    (∀ v, t.lookup key = some v → v.isNull = false →
      set_config_if_not_none t s app attr key app attr = v)
    ∧ (t.lookup key = none ∨ t.lookup key = some CValue.null →
      set_config_if_not_none t s app attr key = s)
    ∧ ((app, attr) ≠ (app2, attr2) → ∀ a b,
      set_config_if_not_none t (set_config_if_not_none t s app attr key)
          app2 attr2 key2 a b
        = set_config_if_not_none t (set_config_if_not_none t s app2 attr2 key2)
          app attr key a b) := by
  refine ⟨?_, ?_, ?_⟩
  · intro v hv hnull
    simp [set_config_if_not_none, hv, hnull, setAttr]
  · rintro (h | h) <;> simp [set_config_if_not_none, h, CValue.isNull]
  · intro hne a b
    unfold set_config_if_not_none
    cases h1 : t.lookup key with
    | none =>
      cases h2 : t.lookup key2 <;> simp
    | some v1 =>
      cases h2 : t.lookup key2 with
      | none => simp
      | some v2 =>
        by_cases n1 : v1.isNull <;> by_cases n2 : v2.isNull <;>
          simp only [n1, n2, if_true, if_false, Bool.false_eq_true,
            if_neg, if_pos]
        case neg =>
          show setAttr (setAttr s app attr v1) app2 attr2 v2 a b
            = setAttr (setAttr s app2 attr2 v2) app attr v1 a b
          unfold setAttr
          by_cases hA : (a == app && b == attr) = true
          · by_cases hB : (a == app2 && b == attr2) = true
            · exfalso
              rw [Bool.and_eq_true] at hA hB
              have e1 : a = app := beq_iff_eq.mp hA.1
              have e2 : b = attr := beq_iff_eq.mp hA.2
              have e3 : a = app2 := beq_iff_eq.mp hB.1
              have e4 : b = attr2 := beq_iff_eq.mp hB.2
              exact hne (by rw [← e1, ← e2, ← e3, ← e4])
            · simp [hA, hB]
          · by_cases hB : (a == app2 && b == attr2) = true <;> simp [hA, hB]

/-- Witness for C1 at concrete inputs: a present non-null key
(`hub.baseUrl`) sets the attribute, an absent key (`hub.db.url`) leaves
the configuration object unchanged, and two applications with distinct
targets commute at a concrete point. -/
theorem set_config_if_not_none_spec_witness :
    set_config_if_not_none c1_tree defaultSettings "JupyterHub" "base_url"
        "hub.baseUrl" "JupyterHub" "base_url" = CValue.str "/jh"
    ∧ set_config_if_not_none c1_tree defaultSettings "JupyterHub" "db_url"
        "hub.db.url" = defaultSettings
    ∧ set_config_if_not_none c1_tree
        (set_config_if_not_none c1_tree defaultSettings "JupyterHub" "base_url"
          "hub.baseUrl") "Spawner" "default_url" "singleuser.defaultUrl"
        "JupyterHub" "base_url"
      = set_config_if_not_none c1_tree
        (set_config_if_not_none c1_tree defaultSettings "Spawner" "default_url"
          "singleuser.defaultUrl") "JupyterHub" "base_url" "hub.baseUrl"
        "JupyterHub" "base_url" :=
  ⟨(set_config_if_not_none_spec c1_tree defaultSettings "JupyterHub" "base_url"
      "hub.baseUrl" "x" "y" "z").1 (CValue.str "/jh") rfl rfl,
   (set_config_if_not_none_spec c1_tree defaultSettings "JupyterHub" "db_url"
      "hub.db.url" "x" "y" "z").2.1 (Or.inl rfl),
   (set_config_if_not_none_spec c1_tree defaultSettings "JupyterHub" "base_url"
      "hub.baseUrl" "Spawner" "default_url" "singleuser.defaultUrl").2.2
      (by decide) "JupyterHub" "base_url"⟩

/-- Translation of `common_oauth_traits` (src line 346): trait names
paired with an optional explicit source key. -/
def common_oauth_traits : List (String × Option String) :=
  [("client_id", none), ("client_secret", none),
   ("oauth_callback_url", some "callbackUrl")]

/-- Translation of the per-branch loops that do apply the
`if cfg_key is None: cfg_key = camelCaseify(trait)` fallback (google and
github branches, src lines 354-369). -/
def applyTraitList (t : ConfigTree) (s : Settings) (app keyP : String)
    (l : List (String × Option String)) : Settings :=
  l.foldl (fun s p =>
    let cfg_key := match p.2 with
      | none => camelCaseify p.1
      | some k => k
    set_config_if_not_none t s app p.1 (keyP ++ cfg_key)) s

/-- Translation of the per-branch loops that concatenate
`'auth.xxx.' + cfg_key` without the `None` fallback (cilogon, gitlab,
mediawiki and globus branches, src lines 372-389): a `None` `cfg_key`
makes the Python `str + NoneType` concatenation raise a `TypeError`. -/
def applyTraitListNoFallback (t : ConfigTree) (s : Settings) (app keyP : String)
    (l : List (String × Option String)) : Except String Settings :=
  l.foldlM (fun s p =>
    match p.2 with
    | none =>
      Except.error "TypeError: can only concatenate str (not NoneType) to str"
    | some k => Except.ok (set_config_if_not_none t s app p.1 (keyP ++ k))) s

/-- Last component of `full_class_name.rsplit('.', 1)` (src line 425). -/
def rsplitLast (s : String) : String :=
  (s.splitOn ".").getLastD ""

/-- Translation of the authenticator dispatch (src lines 343-429): the
`if/elif` chain on `get_config('auth.type')`.  Branches that complete
return the updated configuration object in `Except.ok`; the Python
exceptions a branch can raise (including the final
`raise ValueError("Unhandled auth type: %r" % auth_type)`) are
`Except.error`.  The local `email_domain` variable assigned in the
google branch is read by no later code and is not modelled. -/
def applyAuthConfig (t : ConfigTree) (s : Settings) : Except String Settings :=
  let auth_type := get_config t "auth.type"
  if auth_type.eqStr "google" then
    let s := setAttr s "JupyterHub" "authenticator_class"
      (CValue.str "oauthenticator.GoogleOAuthenticator")
    Except.ok (applyTraitList t s "GoogleOAuthenticator" "auth.google."
      (common_oauth_traits ++ [("hosted_domain", none), ("login_service", none)]))
  else if auth_type.eqStr "github" then
    let s := setAttr s "JupyterHub" "authenticator_class"
      (CValue.str "oauthenticator.github.GitHubOAuthenticator")
    Except.ok (applyTraitList t s "GitHubOAuthenticator" "auth.github."
      (common_oauth_traits ++ [("github_organization_whitelist", some "orgWhitelist")]))
  else if auth_type.eqStr "cilogon" then
    let s := setAttr s "JupyterHub" "authenticator_class"
      (CValue.str "oauthenticator.CILogonOAuthenticator")
    applyTraitListNoFallback t s "CILogonOAuthenticator" "auth.cilogon."
      common_oauth_traits
  else if auth_type.eqStr "gitlab" then
    let s := setAttr s "JupyterHub" "authenticator_class"
      (CValue.str "oauthenticator.gitlab.GitLabOAuthenticator")
    applyTraitListNoFallback t s "GitLabOAuthenticator" "auth.gitlab."
      common_oauth_traits
  else if auth_type.eqStr "mediawiki" then
    let s := setAttr s "JupyterHub" "authenticator_class"
      (CValue.str "oauthenticator.mediawiki.MWOAuthenticator")
    applyTraitListNoFallback t s "MWOAuthenticator" "auth.mediawiki."
      (common_oauth_traits ++ [("index_url", none)])
  else if auth_type.eqStr "globus" then
    let s := setAttr s "JupyterHub" "authenticator_class"
      (CValue.str "oauthenticator.globus.GlobusOAuthenticator")
    applyTraitListNoFallback t s "GlobusOAuthenticator" "auth.globus."
      (common_oauth_traits ++ [("identity_provider", none)])
  else if auth_type.eqStr "hmac" then
    let s := setAttr s "JupyterHub" "authenticator_class"
      (CValue.str "hmacauthenticator.HMACAuthenticator")
    match get_config t "auth.hmac.secretKey" with
    | CValue.str hex =>
      Except.ok (setAttr s "HMACAuthenticator" "secret_key" (CValue.str hex))
    | _ => Except.error "TypeError: fromhex() argument must be str"
  else if auth_type.eqStr "dummy" then
    let s := setAttr s "JupyterHub" "authenticator_class"
      (CValue.str "dummyauthenticator.DummyAuthenticator")
    Except.ok (set_config_if_not_none t s "DummyAuthenticator" "password"
      "auth.dummy.password")
  else if auth_type.eqStr "tmp" then
    Except.ok (setAttr s "JupyterHub" "authenticator_class"
      (CValue.str "tmpauthenticator.TmpAuthenticator"))
  else if auth_type.eqStr "lti" then
    let s := setAttr s "JupyterHub" "authenticator_class"
      (CValue.str "ltiauthenticator.LTIAuthenticator")
    Except.ok (set_config_if_not_none t s "LTIAuthenticator" "consumers"
      "auth.lti.consumers")
  else if auth_type.eqStr "ldap" then
    let s := setAttr s "JupyterHub" "authenticator_class"
      (CValue.str "ldapauthenticator.LDAPAuthenticator")
    let s := setAttr s "LDAPAuthenticator" "server_address"
      (get_config t "auth.ldap.server.address")
    let s := set_config_if_not_none t s "LDAPAuthenticator" "server_port"
      "auth.ldap.server.port"
    let s := set_config_if_not_none t s "LDAPAuthenticator" "use_ssl"
      "auth.ldap.server.ssl"
    let s := set_config_if_not_none t s "LDAPAuthenticator" "allowed_groups"
      "auth.ldap.allowedGroups"
    let s := set_config_if_not_none t s "LDAPAuthenticator" "bind_dn_template"
      "auth.ldap.dn.templates"
    let s := set_config_if_not_none t s "LDAPAuthenticator" "lookup_dn"
      "auth.ldap.dn.lookup"
    let s := set_config_if_not_none t s "LDAPAuthenticator"
      "lookup_dn_search_filter" "auth.ldap.dn.search.filter"
    let s := set_config_if_not_none t s "LDAPAuthenticator"
      "lookup_dn_search_user" "auth.ldap.dn.search.user"
    let s := set_config_if_not_none t s "LDAPAuthenticator"
      "lookup_dn_search_password" "auth.ldap.dn.search.password"
    let s := set_config_if_not_none t s "LDAPAuthenticator"
      "lookup_dn_user_dn_attribute" "auth.ldap.dn.user.dnAttribute"
    let s := set_config_if_not_none t s "LDAPAuthenticator" "escape_userdn"
      "auth.ldap.dn.user.escape"
    let s := set_config_if_not_none t s "LDAPAuthenticator"
      "valid_username_regex" "auth.ldap.dn.user.validRegex"
    let s := set_config_if_not_none t s "LDAPAuthenticator" "user_search_base"
      "auth.ldap.dn.user.searchBase"
    Except.ok (set_config_if_not_none t s "LDAPAuthenticator" "user_attribute"
      "auth.ldap.dn.user.attribute")
  else if auth_type.eqStr "custom" then
    match get_config t "auth.custom.className" with
    | CValue.str full_class_name =>
      let s := setAttr s "JupyterHub" "authenticator_class"
        (CValue.str full_class_name)
      let auth_class_name := rsplitLast full_class_name
      match get_config t "auth.custom.config" with
      | CValue.dict entries =>
        Except.ok (entries.foldl
          (fun s kv => setAttr s auth_class_name kv.1 kv.2) s)
      | v =>
        if v.truthy then
          Except.error "TypeError: update() argument must be a mapping"
        else Except.ok s
    | _ => Except.error "AttributeError: rsplit is not defined on this value"
  else
    Except.error ("Unhandled auth type: " ++ auth_type.pyRepr)

/-- Authenticator selectors recognized by the dispatch's `if/elif`
chain. -/
def recognized_auth_types : List String :=
  ["google", "github", "cilogon", "gitlab", "mediawiki", "globus", "hmac",
   "dummy", "tmp", "lti", "ldap", "custom"]

/-- Unrecognized selectors fail every string comparison of the `if/elif`
chain. -/
theorem eqStr_false_of_unrecognized (v : CValue)
    (h : ∀ n, v = CValue.str n → n ∉ recognized_auth_types)
    (m : String) (hm : m ∈ recognized_auth_types) : v.eqStr m = false := by
  cases v with
  | str s =>
    have hs := h s rfl
    simp only [CValue.eqStr, beq_eq_false_iff_ne, ne_eq]
    intro he
    exact hs (he ▸ hm)
  | null => rfl
  | bool b => rfl
  | int n => rfl
  | list xs => rfl
  | dict xs => rfl

/-- C2: for every configuration tree whose `auth.type` value is outside
the enumerated selector set, the authenticator dispatch evaluates to a
fatal `Except.error` whose message names the unrecognized value (for a
string selector `s` the message is literally `Unhandled auth type: 's'`),
and no configuration is applied: the evaluation produces no settings
object at all (no `Except.ok` result), so the aborted startup delivers
nothing to the hosting service. -/
theorem applyAuthConfig_unrecognized (t : ConfigTree) (s : Settings)
    (h : ∀ n, get_config t "auth.type" = CValue.str n →
      n ∉ recognized_auth_types) :
    applyAuthConfig t s
      = Except.error ("Unhandled auth type: "
          ++ (get_config t "auth.type").pyRepr)
    ∧ (∀ n, get_config t "auth.type" = CValue.str n →
        applyAuthConfig t s
          = Except.error ("Unhandled auth type: \x27" ++ n ++ "\x27"))
    ∧ (∀ s', applyAuthConfig t s ≠ Except.ok s') := by
  have hf : ∀ m ∈ recognized_auth_types,
      (get_config t "auth.type").eqStr m = false :=
    fun m hm => eqStr_false_of_unrecognized _ h m hm
  have main : applyAuthConfig t s
      = Except.error ("Unhandled auth type: "
          ++ (get_config t "auth.type").pyRepr) := by
    unfold applyAuthConfig
    simp only [hf "google" (by decide), hf "github" (by decide),
      hf "cilogon" (by decide), hf "gitlab" (by decide),
      hf "mediawiki" (by decide), hf "globus" (by decide),
      hf "hmac" (by decide), hf "dummy" (by decide),
      hf "tmp" (by decide), hf "lti" (by decide),
      hf "ldap" (by decide), hf "custom" (by decide),
      Bool.false_eq_true, if_false]
  refine ⟨main, ?_, ?_⟩
  · intro n hn
    rw [main, hn]
    show Except.error ("Unhandled auth type: " ++ (("\x27" ++ n) ++ "\x27")) = _
    rw [← String.append_assoc, ← String.append_assoc]
    rfl
  · intro s' hc
    rw [main] at hc
    exact Except.noConfusion hc

/-- Concrete configuration tree with an unrecognized `auth.type`. -/
def c2_tree : ConfigTree := treeOfList [("auth.type", CValue.str "bogus")]

/-- Witness for C2: the dispatch on `auth.type = "bogus"` errors with a
message naming `bogus`. -/
theorem applyAuthConfig_unrecognized_witness :
    applyAuthConfig c2_tree defaultSettings
      = Except.error "Unhandled auth type: \x27bogus\x27" := by
  have h : ∀ n, get_config c2_tree "auth.type" = CValue.str n →
      n ∉ recognized_auth_types := by
    intro n hn
    have h2 : CValue.str "bogus" = CValue.str n := hn
    injection h2 with h3
    subst h3
    decide
  exact (applyAuthConfig_unrecognized c2_tree defaultSettings h).2.1 "bogus" rfl

/-- The authentication profile record cached in the user's auth state
and read by the pre-spawn hook (`auth_state['profile']`).  The
`advanced` flag is read with `.get('advanced', False)` and so may be
absent; the remaining fields are accessed unconditionally by a hook
invocation that completes.  `group_map` keeps Python's dict insertion
order. -/
structure Profile where
  uid : Int
  gid : Int
  group_membership : List Int
  group_map : List (Int × String)
  advanced : Option Bool

/-- The mutable spawner fields touched by the pre-spawn hook. -/
structure SpawnerState where
  uid : Option Int
  gid : Option Int
  fs_gid : Option Int
  supplemental_gids : List Int
  environment : List (String × String)

/-- Python dict assignment `d[k] = v`: an existing key keeps its
position and gets the new value, a fresh key is appended. -/
def envSet (env : List (String × String)) (k v : String) :
    List (String × String) :=
  if env.any (fun p => p.1 == k) then
    env.map (fun p => if p.1 == k then (k, v) else p)
  else env ++ [(k, v)]

/-- Python dict lookup `d.get(k)`. -/
def envGet (env : List (String × String)) (k : String) : Option String :=
  (env.find? (fun p => p.1 == k)).map Prod.snd

/-- Translation of the body of `spawner_config` (src lines 645-668)
after the auth-state fetch has produced `profile`:
the hook resets `spawner.uid`/`spawner.gid` to 0, leaves the
profile-derived uid/gid assignments commented out, sets `fs_gid` and
`supplemental_gids` from the profile, and fills the spawn environment. -/
def spawner_config (git_server user_name : String) (admin : Bool)
    (profile : Profile) (s : SpawnerState) : SpawnerState :=
  let s := { s with uid := some 0, gid := some 0 }
  let s := { s with fs_gid := some profile.gid }
  let s := { s with supplemental_gids := profile.group_membership }
  let env := envSet s.environment "NB_USER" user_name
  let env := envSet env "NB_UID" (toString profile.uid)
  let env := envSet env "NB_GID" (toString profile.gid)
  let env :=
    if admin || profile.advanced.getD false then envSet env "GRANT_SUDO" "1"
    else env
  let env := envSet env "GIT_SSH_HOST" git_server
  let env := envSet env "NOTEBOOK_DIR" ("/home/" ++ user_name ++ "/jupyter")
  let env := envSet env "GROUP_BUILD"
    (String.intercalate " "
      (profile.group_map.map (fun p => p.2 ++ ":" ++ toString p.1)))
  let env := envSet env "GROUP_MEMBER"
    (String.intercalate " " (profile.group_membership.map toString))
  { s with environment := env }

/-- C3: every completed invocation of the pre-spawn hook leaves the
spawner's uid and gid equal to 0 regardless of the profile's uid/gid,
while `fs_gid` equals the profile's gid and `supplemental_gids` equals
the profile's group membership: the profile-derived uid/gid go only into
environment strings, never into the spawn identity fields. -/
theorem spawner_config_identity (git_server user_name : String) (admin : Bool)
    (profile : Profile) (s : SpawnerState) :
    (spawner_config git_server user_name admin profile s).uid = some 0
    ∧ (spawner_config git_server user_name admin profile s).gid = some 0
    ∧ (spawner_config git_server user_name admin profile s).fs_gid
        = some profile.gid
    ∧ (spawner_config git_server user_name admin profile s).supplemental_gids
        = profile.group_membership := by
  refine ⟨rfl, rfl, rfl, rfl⟩

/-- The concrete directory-profile record of the specification's C4
scenario. -/
def c4_profile : Profile :=
  { uid := 1000, gid := 2000, group_membership := [2000, 3000],
    group_map := [(2000, "g1"), (3000, "g2")], advanced := some false }

/-- C4: for a non-admin user with the C4 profile record and an initially
empty spawn environment, the resulting environment has `NB_UID = 1000`,
`NB_GID = 2000`, no `GRANT_SUDO` key, `GROUP_MEMBER = "2000 3000"` and
`GROUP_BUILD = "g1:2000 g2:3000"` (containing both `g1:2000` and
`g2:3000`). -/
theorem spawner_config_c4_env (git_server user_name : String) :
    (spawner_config git_server user_name false c4_profile
        ⟨none, none, none, [], []⟩).environment
      = [("NB_USER", user_name), ("NB_UID", "1000"), ("NB_GID", "2000"),
         ("GIT_SSH_HOST", git_server),
         ("NOTEBOOK_DIR", "/home/" ++ user_name ++ "/jupyter"),
         ("GROUP_BUILD", "g1:2000 g2:3000"),
         ("GROUP_MEMBER", "2000 3000")]
    ∧ envGet (spawner_config git_server user_name false c4_profile
        ⟨none, none, none, [], []⟩).environment "GRANT_SUDO" = none := by
  constructor
  · rfl
  · rfl

/-- Strip all leading and trailing occurrences of `/` from a character
list (Python `s.strip('/')`). -/
def stripSlashChars (l : List Char) : List Char :=
  ((l.dropWhile (· == '/')).reverse.dropWhile (· == '/')).reverse

/-- Modelled from the consumed `jupyterhub.utils.url_path_join` library
function (two-piece case): join path components while collapsing the
slashes at the joint, preserving a leading slash of the first piece and
a trailing slash of the last. -/
def url_path_join (a b : String) : String :=
  let initial := a.startsWith "/"
  let final := b.endsWith "/"
  let sa : String := ⟨stripSlashChars a.data⟩
  let sb : String := ⟨stripSlashChars b.data⟩
  let result := String.intercalate "/" ([sa, sb].filter (fun s => !(s == "")))
  let result := if initial then "/" ++ result else result
  let result := if final then result ++ "/" else result
  if result == "//" then "/" else result

/-- A JupyterHub service descriptor, as appended to
`c.JupyterHub.services`. -/
structure Service where
  name : String
  command : List String

/-- A JupyterHub role descriptor, as appended to
`c.JupyterHub.load_roles`. -/
structure Role where
  name : String
  scopes : List String
  services : List String

/-- Translation of the `cull_cmd` assembly inside the
`if get_config("cull.enabled", False):` block (src lines 460-488).
`base_url` stands for `c.JupyterHub.get("base_url", "/")`.  Each
conditional `cull_cmd.append(...)` of the source is rendered as
appending a zero- or one-element segment. -/
def cull_cmd (t : ConfigTree) (base_url : String) : List String :=
  ["python3", "-m", "jupyterhub_idle_culler"]
  ++ ["--url=http://localhost:8081" ++ url_path_join base_url "hub/api"]
  ++ (if (get_config t "cull.timeout").truthy then
      ["--timeout=" ++ (get_config t "cull.timeout").pyStr] else [])
  ++ (if (get_config t "cull.every").truthy then
      ["--cull-every=" ++ (get_config t "cull.every").pyStr] else [])
  ++ (if (get_config t "cull.concurrency").truthy then
      ["--concurrency=" ++ (get_config t "cull.concurrency").pyStr] else [])
  ++ (if (get_config t "cull.users").truthy then ["--cull-users"] else [])
  ++ (if !(get_config t "cull.adminUsers").truthy then
      ["--cull-admin-users=false"] else [])
  ++ (if (get_config t "cull.removeNamedServers").truthy then
      ["--remove-named-servers"] else [])
  ++ (if (get_config t "cull.maxAge").truthy then
      ["--max-age=" ++ (get_config t "cull.maxAge").pyStr] else [])

/-- Translation of `jupyterhub_idle_culler_role["scopes"]` (src lines
449-455 and the conditional append at 478): the base scope list plus
`admin:users` exactly when `cull.users` is truthy. -/
def cull_role_scopes (t : ConfigTree) : List String :=
  ["list:users", "read:users:activity", "read:servers", "delete:servers"]
  ++ (if (get_config t "cull.users").truthy then ["admin:users"] else [])

/-- Translation of the whole `if get_config("cull.enabled", False):`
block (src lines 446-496): the pair of (services, load_roles) entries it
appends to `c.JupyterHub.services` and `c.JupyterHub.load_roles`. -/
def cullBlock (t : ConfigTree) (base_url : String) :
    List Service × List Role :=
  if (get_configD t "cull.enabled" (CValue.bool false)).truthy then
    ([{ name := "jupyterhub-idle-culler", command := cull_cmd t base_url }],
     [{ name := "jupyterhub-idle-culler", scopes := cull_role_scopes t,
        services := ["jupyterhub-idle-culler"] }])
  else ([], [])

/-- A string extending a proper non-prefix of `b` never equals `b`. -/
theorem append_ne_of_not_pre (pre s b : String)
    (h : pre.data.isPrefixOf b.data = false) : pre ++ s ≠ b := by
  intro he
  have hl : pre.data ++ s.data = b.data := by rw [← String.data_append, he]
  have hp : pre.data <+: b.data := ⟨s.data, hl⟩
  rw [← List.isPrefixOf_iff_prefix, h] at hp
  exact Bool.noConfusion hp

/-- Membership in a conditional singleton segment. -/
theorem mem_ite_singleton (x y : String) (c : Prop) [Decidable c] :
    x ∈ (if c then [y] else []) ↔ c ∧ x = y := by
  by_cases h : c <;> simp [h]

/-- The `--cull-users` flag appears in the assembled culler command
exactly when `cull.users` is truthy. -/
theorem cull_users_mem_cmd (t : ConfigTree) (base_url : String) :
    "--cull-users" ∈ cull_cmd t base_url
      ↔ (get_config t "cull.users").truthy = true := by
  unfold cull_cmd
  simp only [List.append_assoc, List.mem_append, List.mem_cons,
    List.mem_singleton, List.not_mem_nil, mem_ite_singleton]
  constructor
  · rintro ((h | h | h | h) | (h | h) |
      (⟨-, h⟩ | ⟨-, h⟩ | ⟨-, h⟩ | ⟨h, -⟩ | ⟨-, h⟩ | ⟨-, h⟩ | ⟨-, h⟩))
    · exact absurd h (by decide)
    · exact absurd h (by decide)
    · exact absurd h (by decide)
    · exact h.elim
    · exact absurd h.symm (append_ne_of_not_pre _ _ _ (by decide))
    · exact h.elim
    · exact absurd h.symm (append_ne_of_not_pre _ _ _ (by decide))
    · exact absurd h.symm (append_ne_of_not_pre _ _ _ (by decide))
    · exact absurd h.symm (append_ne_of_not_pre _ _ _ (by decide))
    · exact h
    · exact absurd h (by decide)
    · exact absurd h (by decide)
    · exact absurd h.symm (append_ne_of_not_pre _ _ _ (by decide))
  · intro h
    exact Or.inr (Or.inr (Or.inr (Or.inr (Or.inr (Or.inl ⟨h, trivial⟩)))))

/-- The `admin:users` scope appears in the culler role's scopes exactly
when `cull.users` is truthy. -/
theorem admin_users_mem_scopes (t : ConfigTree) :
    "admin:users" ∈ cull_role_scopes t
      ↔ (get_config t "cull.users").truthy = true := by
  unfold cull_role_scopes
  simp only [List.append_assoc, List.mem_append, List.mem_cons,
    List.mem_singleton, List.not_mem_nil, mem_ite_singleton]
  constructor
  · rintro ((h | h | h | h | h) | ⟨h, -⟩)
    · exact absurd h (by decide)
    · exact absurd h (by decide)
    · exact absurd h (by decide)
    · exact absurd h (by decide)
    · exact h.elim
    · exact h
  · intro h
    exact Or.inr ⟨h, trivial⟩

/-- C5: with `cull.enabled` truthy, the culler block appends exactly one
service descriptor and exactly one role descriptor; the service command
contains `--cull-users` iff `cull.users` is truthy, and the role's
scopes contain `admin:users` iff the command contains `--cull-users`. -/
theorem cullBlock_spec (t : ConfigTree) (base_url : String)
    (h : (get_configD t "cull.enabled" (CValue.bool false)).truthy = true) :
    (cullBlock t base_url).1
      = [{ name := "jupyterhub-idle-culler", command := cull_cmd t base_url }]
    ∧ (cullBlock t base_url).2
      = [{ name := "jupyterhub-idle-culler", scopes := cull_role_scopes t,
           services := ["jupyterhub-idle-culler"] }]
    ∧ (cullBlock t base_url).1.length = 1
    ∧ (cullBlock t base_url).2.length = 1
    ∧ ("--cull-users" ∈ cull_cmd t base_url
        ↔ (get_config t "cull.users").truthy = true)
    ∧ ("admin:users" ∈ cull_role_scopes t
        ↔ "--cull-users" ∈ cull_cmd t base_url) := by
  refine ⟨?_, ?_, ?_, ?_, cull_users_mem_cmd t base_url, ?_⟩
  · simp [cullBlock, h]
  · simp [cullBlock, h]
  · simp [cullBlock, h]
  · simp [cullBlock, h]
  · rw [admin_users_mem_scopes t, cull_users_mem_cmd t base_url]

/-- Concrete configuration tree enabling the culler with user culling. -/
def c5_tree : ConfigTree :=
  treeOfList [("cull.enabled", CValue.bool true),
              ("cull.users", CValue.bool true)]

/-- Witness for C5 at a concrete tree with `cull.enabled` and
`cull.users` both true. -/
theorem cullBlock_spec_witness :
    (cullBlock c5_tree "/").1.length = 1
    ∧ (cullBlock c5_tree "/").2.length = 1
    ∧ "--cull-users" ∈ cull_cmd c5_tree "/"
    ∧ "admin:users" ∈ cull_role_scopes c5_tree := by
  have h := cullBlock_spec c5_tree "/" (by decide)
  exact ⟨h.2.2.1, h.2.2.2.1, h.2.2.2.2.1.mpr (by decide),
    h.2.2.2.2.2.mpr (h.2.2.2.2.1.mpr (by decide))⟩

/-- Observable events of the extra-configuration loading stage: a
printed progress line, execution of a config-directory file, execution
of a `hub.extraConfig` fragment (identified by its key). -/
inductive LoadEvent where
  | printLine : String → LoadEvent
  | execFile : String → LoadEvent
  | execFragment : String → LoadEvent

/-- The hard-coded configuration fragment directory (src line 588). -/
def config_dir : String := "/usr/local/etc/jupyterhub/jupyterhub_config.d"

/-- Comparison of `hub.extraConfig` items by key, as Python's
`sorted(dict.items())` orders them (keys of a dict are distinct, so the
tuple comparison never reaches the values). -/
def keyLe (a b : String × String) : Prop := a.1 ≤ b.1

instance : DecidableRel keyLe :=
  fun a b => inferInstanceAs (Decidable (a.1 ≤ b.1))

instance : IsTotal (String × String) keyLe :=
  ⟨fun a b => le_total a.1 b.1⟩

instance : IsTrans (String × String) keyLe :=
  ⟨fun _ _ _ hab hbc => le_trans hab hbc⟩

/-- Translation of the extra-config loading stage (src lines 587-601):
the `.py` files of the config directory are processed in sorted filename
order, then the `hub.extraConfig` fragments in sorted key order, each
announced by a progress line printed immediately before its execution.
`files` are the basenames of the globbed `*.py` paths (all globbed paths
share the directory prefix, so sorting full paths and sorting basenames
agree); `extraConfig` is the key-to-source dictionary
`get_config("hub.extraConfig", {})` as an insertion-ordered item list. -/
def loadExtraConfig (files : List String)
    (extraConfig : List (String × String)) : List LoadEvent :=
  ((files.insertionSort (· ≤ ·)).flatMap
    (fun f =>
      [LoadEvent.printLine ("Loading " ++ config_dir ++ " config: " ++ f),
       LoadEvent.execFile f]))
  ++ ((extraConfig.insertionSort keyLe).flatMap
    (fun kv =>
      [LoadEvent.printLine ("Loading extra config: " ++ kv.1),
       LoadEvent.execFragment kv.1]))

/-- File-execution events of a trace, in order. -/
def fileExecs (tr : List LoadEvent) : List String :=
  tr.filterMap (fun e =>
    match e with
    | LoadEvent.execFile f => some f
    | _ => none)

/-- Fragment-execution events of a trace, in order. -/
def fragExecs (tr : List LoadEvent) : List String :=
  tr.filterMap (fun e =>
    match e with
    | LoadEvent.execFragment k => some k
    | _ => none)

/-- Checks that a trace is a sequence of (progress line, execution)
pairs in which every execution is immediately preceded by the progress
line identifying it. -/
def wellAnnounced : List LoadEvent → Bool
  | [] => true
  | LoadEvent.printLine p :: LoadEvent.execFile f :: rest =>
    (p == "Loading " ++ config_dir ++ " config: " ++ f) && wellAnnounced rest
  | LoadEvent.printLine p :: LoadEvent.execFragment k :: rest =>
    (p == "Loading extra config: " ++ k) && wellAnnounced rest
  | _ => false

theorem fileExecs_append (a b : List LoadEvent) :
    fileExecs (a ++ b) = fileExecs a ++ fileExecs b :=
  List.filterMap_append a b _

theorem fragExecs_append (a b : List LoadEvent) :
    fragExecs (a ++ b) = fragExecs a ++ fragExecs b :=
  List.filterMap_append a b _

theorem fileExecs_fileBlocks (l : List String) :
    fileExecs (l.flatMap (fun f =>
      [LoadEvent.printLine ("Loading " ++ config_dir ++ " config: " ++ f),
       LoadEvent.execFile f])) = l := by
  induction l with
  | nil => rfl
  | cons a l ih =>
    rw [List.flatMap_cons, fileExecs_append, ih]
    rfl

theorem fileExecs_fragBlocks (l : List (String × String)) :
    fileExecs (l.flatMap (fun kv =>
      [LoadEvent.printLine ("Loading extra config: " ++ kv.1),
       LoadEvent.execFragment kv.1])) = [] := by
  induction l with
  | nil => rfl
  | cons a l ih =>
    rw [List.flatMap_cons, fileExecs_append, ih]
    rfl

theorem fragExecs_fileBlocks (l : List String) :
    fragExecs (l.flatMap (fun f =>
      [LoadEvent.printLine ("Loading " ++ config_dir ++ " config: " ++ f),
       LoadEvent.execFile f])) = [] := by
  induction l with
  | nil => rfl
  | cons a l ih =>
    rw [List.flatMap_cons, fragExecs_append, ih]
    rfl

theorem fragExecs_fragBlocks (l : List (String × String)) :
    fragExecs (l.flatMap (fun kv =>
      [LoadEvent.printLine ("Loading extra config: " ++ kv.1),
       LoadEvent.execFragment kv.1])) = l.map Prod.fst := by
  induction l with
  | nil => rfl
  | cons a l ih =>
    rw [List.flatMap_cons, fragExecs_append, ih]
    rfl

theorem wellAnnounced_fragBlocks (l : List (String × String)) :
    wellAnnounced (l.flatMap (fun kv =>
      [LoadEvent.printLine ("Loading extra config: " ++ kv.1),
       LoadEvent.execFragment kv.1])) = true := by
  induction l with
  | nil => rfl
  | cons a l ih =>
    rw [List.flatMap_cons, List.cons_append, List.cons_append, List.nil_append]
    show (("Loading extra config: " ++ a.1 == "Loading extra config: " ++ a.1)
        && wellAnnounced (l.flatMap fun kv =>
          [LoadEvent.printLine ("Loading extra config: " ++ kv.1),
           LoadEvent.execFragment kv.1])) = true
    rw [beq_self_eq_true, Bool.true_and, ih]

theorem wellAnnounced_fileBlocks (l : List String)
    (rest : List LoadEvent) :
    wellAnnounced (l.flatMap (fun f =>
      [LoadEvent.printLine ("Loading " ++ config_dir ++ " config: " ++ f),
       LoadEvent.execFile f]) ++ rest) = wellAnnounced rest := by
  induction l with
  | nil => rfl
  | cons a l ih =>
    rw [List.flatMap_cons, List.append_assoc, List.cons_append,
      List.cons_append, List.nil_append]
    show (("Loading " ++ config_dir ++ " config: " ++ a
        == "Loading " ++ config_dir ++ " config: " ++ a)
        && wellAnnounced ((l.flatMap fun f =>
          [LoadEvent.printLine ("Loading " ++ config_dir ++ " config: " ++ f),
           LoadEvent.execFile f]) ++ rest)) = wellAnnounced rest
    rw [beq_self_eq_true, Bool.true_and, ih]

/-- C7: extra configuration fragments are executed in a deterministic
order: the trace is the config-directory part followed by the
`hub.extraConfig` part; the executed files are a permutation of the
input files in sorted (lexicographic) order; the executed fragment keys
are a permutation of the `hub.extraConfig` keys in sorted order; and
every execution is immediately preceded by the progress line
identifying it. -/
theorem loadExtraConfig_order (files : List String)
    (extraConfig : List (String × String)) :
    List.Perm (fileExecs (loadExtraConfig files extraConfig)) files
    ∧ (fileExecs (loadExtraConfig files extraConfig)).Sorted (· ≤ ·)
    ∧ List.Perm (fragExecs (loadExtraConfig files extraConfig))
        (extraConfig.map Prod.fst)
    ∧ (fragExecs (loadExtraConfig files extraConfig)).Sorted (· ≤ ·)
    ∧ wellAnnounced (loadExtraConfig files extraConfig) = true
    ∧ loadExtraConfig files extraConfig
        = loadExtraConfig files [] ++ loadExtraConfig [] extraConfig := by
  have hfile : fileExecs (loadExtraConfig files extraConfig)
      = files.insertionSort (· ≤ ·) := by
    rw [loadExtraConfig, fileExecs_append, fileExecs_fileBlocks,
      fileExecs_fragBlocks, List.append_nil]
  have hfrag : fragExecs (loadExtraConfig files extraConfig)
      = (extraConfig.insertionSort keyLe).map Prod.fst := by
    rw [loadExtraConfig, fragExecs_append, fragExecs_fileBlocks,
      fragExecs_fragBlocks, List.nil_append]
  refine ⟨?_, ?_, ?_, ?_, ?_, ?_⟩
  · rw [hfile]
    exact List.perm_insertionSort _ files
  · rw [hfile]
    exact List.sorted_insertionSort _ files
  · rw [hfrag]
    exact (List.perm_insertionSort keyLe extraConfig).map Prod.fst
  · rw [hfrag]
    exact List.pairwise_map.mpr (List.sorted_insertionSort keyLe extraConfig)
  · rw [loadExtraConfig, wellAnnounced_fileBlocks]
    exact wellAnnounced_fragBlocks _
  · simp [loadExtraConfig]

/-- A value that is not the string `m` compares unequal to it. -/
theorem eqStr_false_of_not_eq (v : CValue) (m : String)
    (h : ∀ n, v = CValue.str n → n ≠ m) : v.eqStr m = false := by
  cases v with
  | str s =>
    simp only [CValue.eqStr, beq_eq_false_iff_ne, ne_eq]
    exact h s rfl
  | null => rfl
  | bool b => rfl
  | int n => rfl
  | list xs => rfl
  | dict xs => rfl

/-- Translation of the `node_selector` dictionary (src lines 216-224). -/
def node_selector : CValue :=
  CValue.dict [("matchExpressions", CValue.list
    [CValue.dict [("key", CValue.str "hub.jupyter.org/node-purpose"),
                  ("operator", CValue.str "In"),
                  ("values", CValue.list [CValue.str "user"])]])]

/-- The weight-100 preferred node-affinity term appended for `prefer`
(src lines 226-231). -/
def prefer_term : CValue :=
  CValue.dict [("weight", CValue.int 100), ("preference", node_selector)]

/-- Translation of the node-purpose affinity block (src lines 213-239):
given the current `node_affinity_preferred` and `node_affinity_required`
lists of the spawner settings, return the updated pair, or the
`ValueError` whose f-string message interpolates the truthy unrecognized
`matchNodePurpose` value. -/
def applyNodePurpose (t : ConfigTree) (preferred required : List CValue) :
    Except String (List CValue × List CValue) :=
  let mnp := get_config t "scheduling.userPods.nodeAffinity.matchNodePurpose"
  if mnp.truthy then
    if mnp.eqStr "prefer" then
      Except.ok (preferred ++ [prefer_term], required)
    else if mnp.eqStr "require" then
      Except.ok (preferred, required ++ [node_selector])
    else if mnp.eqStr "ignore" then
      Except.ok (preferred, required)
    else
      Except.error ("Unrecognized value for matchNodePurpose: " ++ mnp.pyStr)
  else
    Except.ok (preferred, required)

/-- C8: a truthy `matchNodePurpose` value outside
{`prefer`, `require`, `ignore`} makes evaluation raise a fatal
`ValueError` naming the value; `prefer` appends exactly one weight-100
preferred term (`prefer_term`), `require` appends exactly one required
term, and `ignore` or an absent key leaves both affinity lists
unchanged. -/
theorem applyNodePurpose_spec (t : ConfigTree)
    (preferred required : List CValue) :
    ((get_config t "scheduling.userPods.nodeAffinity.matchNodePurpose").truthy
        = true →
      (∀ n, get_config t "scheduling.userPods.nodeAffinity.matchNodePurpose"
          = CValue.str n → n ∉ ["prefer", "require", "ignore"]) →
      applyNodePurpose t preferred required
        = Except.error ("Unrecognized value for matchNodePurpose: "
            ++ (get_config t
              "scheduling.userPods.nodeAffinity.matchNodePurpose").pyStr))
    ∧ (get_config t "scheduling.userPods.nodeAffinity.matchNodePurpose"
        = CValue.str "prefer" →
      applyNodePurpose t preferred required
        = Except.ok (preferred ++ [prefer_term], required)
      ∧ (preferred ++ [prefer_term]).length = preferred.length + 1)
    ∧ (get_config t "scheduling.userPods.nodeAffinity.matchNodePurpose"
        = CValue.str "require" →
      applyNodePurpose t preferred required
        = Except.ok (preferred, required ++ [node_selector])
      ∧ (required ++ [node_selector]).length = required.length + 1)
    ∧ (get_config t "scheduling.userPods.nodeAffinity.matchNodePurpose"
          = CValue.str "ignore"
        ∨ t.lookup "scheduling.userPods.nodeAffinity.matchNodePurpose" = none →
      applyNodePurpose t preferred required
        = Except.ok (preferred, required)) := by
  refine ⟨?_, ?_, ?_, ?_⟩
  · intro htr hn
    have mk : ∀ m, m ∈ ["prefer", "require", "ignore"] →
        (get_config t
          "scheduling.userPods.nodeAffinity.matchNodePurpose").eqStr m
          = false := by
      intro m hm
      apply eqStr_false_of_not_eq
      intro n he hnm
      subst hnm
      exact hn n he hm
    simp [applyNodePurpose, htr, mk "prefer" (by decide),
      mk "require" (by decide), mk "ignore" (by decide)]
  · intro he
    refine ⟨?_, by simp⟩
    simp [applyNodePurpose, he, CValue.truthy, CValue.eqStr]
  · intro he
    refine ⟨?_, by simp⟩
    simp [applyNodePurpose, he, CValue.truthy, CValue.eqStr]
  · rintro (he | he)
    · simp [applyNodePurpose, he, CValue.truthy, CValue.eqStr]
    · simp [applyNodePurpose, get_config, he, CValue.truthy]

/-- Concrete trees for the C8 witness. -/
def c8_tree_bad : ConfigTree :=
  treeOfList [("scheduling.userPods.nodeAffinity.matchNodePurpose",
    CValue.str "bogus")]

def c8_tree_pref : ConfigTree :=
  treeOfList [("scheduling.userPods.nodeAffinity.matchNodePurpose",
    CValue.str "prefer")]

def c8_tree_req : ConfigTree :=
  treeOfList [("scheduling.userPods.nodeAffinity.matchNodePurpose",
    CValue.str "require")]

def c8_tree_empty : ConfigTree := treeOfList []

/-- Witness for C8 at concrete inputs: a truthy unrecognized value
errors naming it, `prefer` and `require` append their single terms, an
absent key changes nothing. -/
theorem applyNodePurpose_spec_witness :
    applyNodePurpose c8_tree_bad [] []
      = Except.error "Unrecognized value for matchNodePurpose: bogus"
    ∧ applyNodePurpose c8_tree_pref [] [] = Except.ok ([prefer_term], [])
    ∧ applyNodePurpose c8_tree_req [] [] = Except.ok ([], [node_selector])
    ∧ applyNodePurpose c8_tree_empty [] [] = Except.ok ([], []) := by
  have hn : ∀ n, get_config c8_tree_bad
      "scheduling.userPods.nodeAffinity.matchNodePurpose" = CValue.str n →
      n ∉ ["prefer", "require", "ignore"] := by
    intro n hn
    have h2 : CValue.str "bogus" = CValue.str n := hn
    injection h2 with h3
    subst h3
    decide
  exact ⟨(applyNodePurpose_spec c8_tree_bad [] []).1 rfl hn,
    ((applyNodePurpose_spec c8_tree_pref [] []).2.1 rfl).1,
    ((applyNodePurpose_spec c8_tree_req [] []).2.2.1 rfl).1,
    (applyNodePurpose_spec c8_tree_empty [] []).2.2.2 (Or.inr rfl)⟩

/-- Translation of the unconditional assignment (src lines 189-191):
`c.KubeSpawner.allow_privilege_escalation =
get_config("singleuser.allowPrivilegeEscalation")`, deliberately not
using `set_config_if_not_none` so that an absent or null key assigns
`None`. -/
def apply_allow_privilege_escalation (t : ConfigTree) (s : Settings) :
    Settings :=
  setAttr s "KubeSpawner" "allow_privilege_escalation"
    (get_config t "singleuser.allowPrivilegeEscalation")

/-- Translation of the sentinel-guarded command assignment (src lines
517-522): `get_config("singleuser.cmd", _unspecified)` returns the
sentinel exactly when the key is absent, so `c.Spawner.cmd` is assigned
whenever the key is present — even with a null value — and left
untouched when it is absent. -/
def apply_specified_cmd (t : ConfigTree) (s : Settings) : Settings :=
  match t.lookup "singleuser.cmd" with
  | some v => setAttr s "Spawner" "cmd" v
  | none => s

/-- C9: `KubeSpawner.allow_privilege_escalation` is unconditionally
assigned the configured value — null when the key is absent or null —
and `Spawner.cmd` is assigned whenever `singleuser.cmd` is present,
even when its value is null, while absence leaves the configuration
object unchanged. -/
theorem null_override_exceptions (t : ConfigTree) (s : Settings) :
    apply_allow_privilege_escalation t s "KubeSpawner"
        "allow_privilege_escalation"
      = get_config t "singleuser.allowPrivilegeEscalation"
    ∧ (t.lookup "singleuser.allowPrivilegeEscalation" = none
        ∨ t.lookup "singleuser.allowPrivilegeEscalation" = some CValue.null →
      apply_allow_privilege_escalation t s "KubeSpawner"
          "allow_privilege_escalation" = CValue.null)
    ∧ (∀ v, t.lookup "singleuser.cmd" = some v →
      apply_specified_cmd t s "Spawner" "cmd" = v)
    ∧ (t.lookup "singleuser.cmd" = none → apply_specified_cmd t s = s) := by
  refine ⟨?_, ?_, ?_, ?_⟩
  · simp [apply_allow_privilege_escalation, setAttr]
  · rintro (h | h) <;>
      simp [apply_allow_privilege_escalation, setAttr, get_config, h]
  · intro v hv
    simp [apply_specified_cmd, hv, setAttr]
  · intro h
    simp [apply_specified_cmd, h]

/-- Concrete tree for the C9 witness: `singleuser.cmd` present with an
explicit null, `singleuser.allowPrivilegeEscalation` absent. -/
def c9_tree : ConfigTree := treeOfList [("singleuser.cmd", CValue.null)]

/-- Witness for C9: with `singleuser.allowPrivilegeEscalation` absent
the attribute is assigned null; a present-null `singleuser.cmd` is
assigned (null); with `singleuser.cmd` absent (in `c1_tree`) the
configuration object is untouched. -/
theorem null_override_exceptions_witness :
    apply_allow_privilege_escalation c9_tree defaultSettings "KubeSpawner"
        "allow_privilege_escalation" = CValue.null
    ∧ apply_specified_cmd c9_tree defaultSettings "Spawner" "cmd"
        = CValue.null
    ∧ apply_specified_cmd c1_tree defaultSettings = defaultSettings :=
  ⟨(null_override_exceptions c9_tree defaultSettings).2.1 (Or.inl rfl),
   (null_override_exceptions c9_tree defaultSettings).2.2.1 CValue.null rfl,
   (null_override_exceptions c1_tree defaultSettings).2.2.2 rfl⟩

/-- Modelled from the spec: `z2jh.get_secret_value` (the `z2jh` module is
not under `src/`), "a secrets-fetch function returning decoded secret
values by dotted key". -/
def SecretStore : Type := String → String

/-- Python `s.split(";")` on the character list: splits at every `;`,
keeping empty segments (an empty input yields one empty segment). -/
def splitSemiChars : List Char → List (List Char)
  | [] => [[]]
  | c :: rest =>
    match splitSemiChars rest with
    | [] => [[]]
    | cur :: parts =>
      if c = ';' then [] :: cur :: parts else (c :: cur) :: parts

/-- Python `s.split(";")`. -/
def pySplitSemi (s : String) : List String :=
  (splitSemiChars s.data).map (fun l => ⟨l⟩)

/-- Translation of the seeded-secret assignments (src lines 569-573):
`c.JupyterHub.cookie_secret` is read from the secret store and
`c.CryptKeeper.keys` is the stored string split on `;`. -/
def applySeededSecrets (secrets : SecretStore) (s : Settings) : Settings :=
  let s := setAttr s "JupyterHub" "cookie_secret"
    (CValue.str (secrets "hub.config.JupyterHub.cookie_secret"))
  setAttr s "CryptKeeper" "keys"
    (CValue.list ((pySplitSemi (secrets "hub.config.CryptKeeper.keys")).map
      CValue.str))

/-- Translation of the strip step of the `hub.config` loop (src lines
577-584): the `cfg.pop(...)` calls remove the secret-bearing keys of the
section before `c[app].update(cfg)` runs. -/
def stripSecretKeys (app : String) (cfg : List (String × CValue)) :
    List (String × CValue) :=
  if app == "JupyterHub" then
    cfg.filter (fun p => !(p.1 == "proxy_auth_token")
      && !(p.1 == "cookie_secret") && !(p.1 == "services"))
  else if app == "ConfigurableHTTPProxy" then
    cfg.filter (fun p => !(p.1 == "auth_token"))
  else if app == "CryptKeeper" then
    cfg.filter (fun p => !(p.1 == "keys"))
  else cfg

/-- Translation of `c[app].update(cfg)`: each remaining (key, value)
entry of the section is assigned in order. -/
def updateApp (s : Settings) (app : String) (cfg : List (String × CValue)) :
    Settings :=
  cfg.foldl (fun s kv => setAttr s app kv.1 kv.2) s

/-- Translation of the secrets-then-hub.config stage (src lines
565-585): seeded secrets are assigned first, then every app section of
`get_config("hub.config", {})` is applied with its secret-bearing keys
stripped. -/
def applyHubConfig (secrets : SecretStore)
    (hubConfig : List (String × List (String × CValue))) (s : Settings) :
    Settings :=
  hubConfig.foldl (fun s p => updateApp s p.1 (stripSecretKeys p.1 p.2))
    (applySeededSecrets secrets s)

theorem updateApp_ne (app A K : String) :
    ∀ (cfg : List (String × CValue)) (s : Settings),
      (∀ kv ∈ cfg, ¬(app = A ∧ kv.1 = K)) →
      updateApp s app cfg A K = s A K := by
  intro cfg
  induction cfg with
  | nil => intro s _; rfl
  | cons kv rest ih =>
    intro s h
    rw [show updateApp s app (kv :: rest)
      = updateApp (setAttr s app kv.1 kv.2) app rest from rfl]
    rw [ih _ (fun kv2 hm => h kv2 (List.mem_cons_of_mem _ hm))]
    have hkv := h kv (List.mem_cons_self _ _)
    unfold setAttr
    by_cases hA : (A == app) = true
    · have hK : (K == kv.1) = false := by
        rw [beq_eq_false_iff_ne]
        intro he
        exact hkv ⟨(beq_iff_eq.mp hA).symm, he.symm⟩
      simp [hA, hK]
    · have hA2 : (A == app) = false := by simpa using hA
      simp [hA2]

theorem updateApp_mem (app k : String) (v : CValue) :
    ∀ (cfg : List (String × CValue)) (s : Settings),
      (k, v) ∈ cfg → (cfg.map Prod.fst).Nodup →
      updateApp s app cfg app k = v := by
  intro cfg
  induction cfg with
  | nil => intro s hm _; cases hm
  | cons kv rest ih =>
    intro s hm hnd
    rw [show updateApp s app (kv :: rest)
      = updateApp (setAttr s app kv.1 kv.2) app rest from rfl]
    rw [List.map_cons] at hnd
    rcases List.mem_cons.mp hm with he | hm2
    · have hk1 : k = kv.1 := congrArg Prod.fst he
      have hv1 : v = kv.2 := congrArg Prod.snd he
      have hnotin : kv.1 ∉ rest.map Prod.fst := (List.nodup_cons.mp hnd).1
      rw [updateApp_ne app app k rest _ ?hne]
      case hne =>
        intro kv2 hm3 hc
        exact hnotin (List.mem_map.mpr ⟨kv2, hm3, hc.2.trans hk1⟩)
      rw [hk1, hv1]
      simp [setAttr]
    · exact ih _ hm2 (List.nodup_cons.mp hnd).2

theorem foldl_update_ne (A K : String) :
    ∀ (hubConfig : List (String × List (String × CValue))) (s0 : Settings),
      (∀ p ∈ hubConfig, ∀ kv ∈ stripSecretKeys p.1 p.2,
        ¬(p.1 = A ∧ kv.1 = K)) →
      (hubConfig.foldl
        (fun s p => updateApp s p.1 (stripSecretKeys p.1 p.2)) s0) A K
        = s0 A K := by
  intro hubConfig
  induction hubConfig with
  | nil => intro s0 _; rfl
  | cons p rest ih =>
    intro s0 h
    rw [List.foldl_cons]
    rw [ih _ (fun q hq => h q (List.mem_cons_of_mem _ hq))]
    exact updateApp_ne p.1 A K _ s0
      (fun kv hm => h p (List.mem_cons_self _ _) kv hm)

theorem foldl_update_mem (app k : String) (v : CValue)
    (cfg : List (String × CValue))
    (hkv : (k, v) ∈ stripSecretKeys app cfg)
    (hknd : ((stripSecretKeys app cfg).map Prod.fst).Nodup) :
    ∀ (hubConfig : List (String × List (String × CValue))) (s0 : Settings),
      (hubConfig.map Prod.fst).Nodup → (app, cfg) ∈ hubConfig →
      (hubConfig.foldl
        (fun s p => updateApp s p.1 (stripSecretKeys p.1 p.2)) s0) app k
        = v := by
  intro hubConfig
  induction hubConfig with
  | nil => intro s0 _ hmem; cases hmem
  | cons p rest ih =>
    intro s0 hnodup hpmem
    rw [List.foldl_cons, List.map_cons] at *
    rcases List.mem_cons.mp hpmem with he | hm
    · have hp1 : app = p.1 := congrArg Prod.fst he
      have hp2 : cfg = p.2 := congrArg Prod.snd he
      have hnotin : p.1 ∉ rest.map Prod.fst := (List.nodup_cons.mp hnodup).1
      rw [foldl_update_ne app k rest _ ?hne]
      case hne =>
        intro q hq kv2 _ hc
        exact hnotin (List.mem_map.mpr ⟨q, hq, hc.1.trans hp1⟩)
      rw [← hp1, ← hp2]
      exact updateApp_mem app k v _ s0 hkv hknd
    · exact ih _ (List.nodup_cons.mp hnodup).2 hm

theorem strip_protects (app : String) (cfg : List (String × CValue))
    (kv : String × CValue) (hm : kv ∈ stripSecretKeys app cfg) :
    ¬(app = "JupyterHub" ∧ kv.1 = "proxy_auth_token")
    ∧ ¬(app = "JupyterHub" ∧ kv.1 = "cookie_secret")
    ∧ ¬(app = "JupyterHub" ∧ kv.1 = "services")
    ∧ ¬(app = "ConfigurableHTTPProxy" ∧ kv.1 = "auth_token")
    ∧ ¬(app = "CryptKeeper" ∧ kv.1 = "keys") := by
  refine ⟨?_, ?_, ?_, ?_, ?_⟩
  · rintro ⟨ha, hk⟩
    subst ha
    simp [stripSecretKeys, List.mem_filter, hk] at hm
  · rintro ⟨ha, hk⟩
    subst ha
    simp [stripSecretKeys, List.mem_filter, hk] at hm
  · rintro ⟨ha, hk⟩
    subst ha
    simp [stripSecretKeys, List.mem_filter, hk] at hm
  · rintro ⟨ha, hk⟩
    subst ha
    simp [stripSecretKeys, List.mem_filter, hk] at hm
  · rintro ⟨ha, hk⟩
    subst ha
    simp [stripSecretKeys, List.mem_filter, hk] at hm

/-- C10: the secret-bearing keys `JupyterHub.proxy_auth_token`,
`JupyterHub.cookie_secret`, `JupyterHub.services`,
`ConfigurableHTTPProxy.auth_token` and `CryptKeeper.keys` are stripped
before the per-app update, so `hub.config` never overwrites the
secret-derived `cookie_secret` and `keys` values (which always come from
the secrets-fetch function, `keys` being the stored string split on
`;`) and never touches the other three; every other (app, key) entry of
`hub.config` is applied unchanged (stated for trees whose app names and
section keys are duplicate-free, so that each entry is written exactly
once). -/
theorem hub_config_secrets_spec (secrets : SecretStore)
    (hubConfig : List (String × List (String × CValue))) (s : Settings) :
    applyHubConfig secrets hubConfig s "JupyterHub" "cookie_secret"
      = CValue.str (secrets "hub.config.JupyterHub.cookie_secret")
    ∧ applyHubConfig secrets hubConfig s "CryptKeeper" "keys"
      = CValue.list ((pySplitSemi
          (secrets "hub.config.CryptKeeper.keys")).map CValue.str)
    ∧ applyHubConfig secrets hubConfig s "JupyterHub" "proxy_auth_token"
      = s "JupyterHub" "proxy_auth_token"
    ∧ applyHubConfig secrets hubConfig s "JupyterHub" "services"
      = s "JupyterHub" "services"
    ∧ applyHubConfig secrets hubConfig s "ConfigurableHTTPProxy" "auth_token"
      = s "ConfigurableHTTPProxy" "auth_token"
    ∧ (∀ app cfg k v, (hubConfig.map Prod.fst).Nodup →
        (app, cfg) ∈ hubConfig → (k, v) ∈ stripSecretKeys app cfg →
        ((stripSecretKeys app cfg).map Prod.fst).Nodup →
        applyHubConfig secrets hubConfig s app k = v) := by
  refine ⟨?_, ?_, ?_, ?_, ?_, ?_⟩
  · rw [applyHubConfig, foldl_update_ne _ _ hubConfig _
      (fun p hp kv hkv => (strip_protects p.1 p.2 kv hkv).2.1)]
    simp [applySeededSecrets, setAttr]
  · rw [applyHubConfig, foldl_update_ne _ _ hubConfig _
      (fun p hp kv hkv => (strip_protects p.1 p.2 kv hkv).2.2.2.2)]
    simp [applySeededSecrets, setAttr]
  · rw [applyHubConfig, foldl_update_ne _ _ hubConfig _
      (fun p hp kv hkv => (strip_protects p.1 p.2 kv hkv).1)]
    simp [applySeededSecrets, setAttr]
  · rw [applyHubConfig, foldl_update_ne _ _ hubConfig _
      (fun p hp kv hkv => (strip_protects p.1 p.2 kv hkv).2.2.1)]
    simp [applySeededSecrets, setAttr]
  · rw [applyHubConfig, foldl_update_ne _ _ hubConfig _
      (fun p hp kv hkv => (strip_protects p.1 p.2 kv hkv).2.2.2.1)]
    simp [applySeededSecrets, setAttr]
  · intro app cfg k v hnd hmem hkv hknd
    exact foldl_update_mem app k v cfg hkv hknd hubConfig _ hnd hmem

/-- Concrete secrets-fetch function for the C10 witness. -/
def c10_secrets : SecretStore :=
  fun k => if k == "hub.config.JupyterHub.cookie_secret" then "seeded-cookie"
    else "k1;k2"

/-- Concrete `hub.config` tree for the C10 witness: it tries to
overwrite both seeded secrets and also carries an ordinary entry. -/
def c10_hubConfig : List (String × List (String × CValue)) :=
  [("JupyterHub", [("cookie_secret", CValue.str "evil"),
                   ("admin_access", CValue.bool true)]),
   ("CryptKeeper", [("keys", CValue.str "evil")])]

/-- Witness for C10: the seeded `cookie_secret` and `keys` survive the
malicious `hub.config` overwrite attempts, while the ordinary
`admin_access` entry is applied. -/
theorem hub_config_secrets_spec_witness :
    applyHubConfig c10_secrets c10_hubConfig defaultSettings "JupyterHub"
        "cookie_secret" = CValue.str "seeded-cookie"
    ∧ applyHubConfig c10_secrets c10_hubConfig defaultSettings "CryptKeeper"
        "keys" = CValue.list [CValue.str "k1", CValue.str "k2"]
    ∧ applyHubConfig c10_secrets c10_hubConfig defaultSettings "JupyterHub"
        "admin_access" = CValue.bool true := by
  have h := hub_config_secrets_spec c10_secrets c10_hubConfig defaultSettings
  refine ⟨h.1, ?_, ?_⟩
  · rw [h.2.1]
    rfl
  apply h.2.2.2.2.2 "JupyterHub"
    [("cookie_secret", CValue.str "evil"), ("admin_access", CValue.bool true)]
    "admin_access" (CValue.bool true)
  · decide
  · exact List.mem_cons_self _ _
  · show ("admin_access", CValue.bool true)
      ∈ stripSecretKeys "JupyterHub"
        [("cookie_secret", CValue.str "evil"),
         ("admin_access", CValue.bool true)]
    rw [show stripSecretKeys "JupyterHub"
        [("cookie_secret", CValue.str "evil"),
         ("admin_access", CValue.bool true)]
      = [("admin_access", CValue.bool true)] from rfl]
    exact List.mem_singleton.mpr rfl
  · decide
